import Mathlib

/-!
# STREAM sender core (interledger-stream client) — verification development

Shallow embedding of `crates/interledger-stream/src/client.rs`: the mutable
payment state (`StreamPayment` and its `apply_prepare` / `apply_fulfill` /
`apply_reject` / `next_sequence` operations), the per-packet send procedure
(`send_money_packet`, split into its Prepare-building phase and its
reply-interpretation phase), the event selection of the `send_money` loop,
and the rate calculator `get_min_destination_amount`.

Modelling conventions:
* `u64` values are `Nat`; the unchecked `u64` subtractions of the source are
  modelled with `checkedSub`, which returns `none` exactly when the Rust
  subtraction would underflow and panic.  Additions cannot overflow under the
  payment invariants (all source-unit amounts are bounded by `source_amount`),
  so they are plain `Nat` additions.
* `Instant` timestamps are `Nat` time units (seconds); `Instant::elapsed` at
  wall-clock time `now` is the truncated difference `now - t` (an `Instant`
  is never later than `now`).
* `f64` exchange-rate arithmetic is modelled over `ℚ`; every `ℚ` is finite,
  and `is_sign_positive` becomes `0 ≤ r`.  The claims about the rate
  calculator concern its control flow (indexing, early returns), which the
  abstraction preserves.
* The crypto and packet-codec modules are not part of the sources under
  verification; they are modelled symbolically from the spec (see the
  individual doc comments): ciphertexts and conditions are free terms, so
  encryption is injective and decryption succeeds exactly on ciphertexts
  produced under the same shared secret.
-/

namespace StreamClient

/-- Byte strings (shared secrets, entropy) as lists of byte values. -/
abbrev Bytes := List Nat

/-- ILP addresses; only identity and equality matter for the sender core. -/
abbrev Address := String

/-- ILP packet type discriminant carried inside STREAM packets. -/
inductive IlpPacketType where
  | Prepare
  | Fulfill
  | Reject
deriving DecidableEq, Repr

/-- Modelled from the spec: `interledger-packet`'s `ErrorClass` is not under
the verified sources.  Classes of ILP reject codes: Final `F__`,
Temporary `T__`, Relative `R__`; anything else is unknown. -/
inductive ErrorClass where
  | Final
  | Temporary
  | Relative
  | Unknown
deriving DecidableEq, Repr

/-- Modelled from the spec: `interledger-packet`'s `ErrorCode` is not under
the verified sources.  A 3-character ILP error code. -/
structure ErrorCode where
  c0 : Char
  c1 : Char
  c2 : Char
deriving DecidableEq, Repr

/-- Modelled from the spec: the class of an error code is determined by its
first character (`F`/`T`/`R`). -/
def ErrorCode.errorClass (c : ErrorCode) : ErrorClass :=
  if c.c0 = 'F' then .Final
  else if c.c0 = 'T' then .Temporary
  else if c.c0 = 'R' then .Relative
  else .Unknown

/-- `F08_AMOUNT_TOO_LARGE`. -/
def f08AmountTooLarge : ErrorCode := ⟨'F', '0', '8'⟩

/-- `F99_APPLICATION_ERROR`. -/
def f99ApplicationError : ErrorCode := ⟨'F', '9', '9'⟩

/-- STREAM frames carried inside a STREAM packet (packet.rs is modelled from
the spec's frame list; only the four frame kinds the sender core touches). -/
inductive Frame where
  | StreamMoney (stream_id : Nat) (shares : Nat)
  | ConnectionNewAddress (source_account : Address)
  | ConnectionAssetDetails (source_asset_code : String) (source_asset_scale : Nat)
  | ConnectionClose (code : Nat) (message : String)
deriving DecidableEq, Repr

/-- A decrypted STREAM packet (sequence, inner packet type, prepare amount,
frames), per the spec's data model. -/
structure StreamPacket where
  sequence : Nat
  ilp_packet_type : IlpPacketType
  prepare_amount : Nat
  frames : List Frame
deriving DecidableEq, Repr

/-- Modelled from the spec: crypto.rs / the STREAM codec are not under the
verified sources.  Ciphertexts are free terms: `enc secret packet` is the
authenticated encryption of `packet` under `secret`, and `garbled bytes` is
any byte string that is not a valid ciphertext under the connection's
secret. -/
inductive Ciphertext where
  | enc (sharedSecret : Bytes) (packet : StreamPacket)
  | garbled (bytes : Bytes)
deriving DecidableEq, Repr

/-- Modelled from the spec: `StreamPacket::into_encrypted`. -/
def intoEncrypted (secret : Bytes) (p : StreamPacket) : Ciphertext :=
  .enc secret p

/-- Modelled from the spec: `StreamPacket::from_encrypted` authenticates the
payload and fails on anything not produced under the same shared secret. -/
def fromEncrypted (secret : Bytes) (c : Ciphertext) : Option StreamPacket :=
  match c with
  | .enc s p => if s = secret then some p else none
  | .garbled _ => none

/-- Modelled from the spec: execution conditions as free terms.
`generated secret data` is the deterministic `generate_condition` output for
the given shared secret and prepare data; `random entropy` is a
`random_condition()` draw, recorded by the sampled entropy. -/
inductive Condition where
  | generated (sharedSecret : Bytes) (prepareData : Ciphertext)
  | random (entropy : Bytes)
deriving DecidableEq, Repr

/-- Modelled from the spec: `generate_condition(shared_secret, prepare_data)`,
a deterministic function of the ciphertext and the shared secret. -/
def generate_condition (secret : Bytes) (data : Ciphertext) : Condition :=
  .generated secret data

/-- Modelled from the spec: `random_condition()`, 32 uniformly random bytes;
the sampled entropy is passed in explicitly to keep the model deterministic. -/
def random_condition (entropy : Bytes) : Condition :=
  .random entropy

/-- An ILP Reject packet (code, message, triggered-by, data). -/
structure RejectPacket where
  code : ErrorCode
  message : String
  triggered_by : Address
  data : Ciphertext
deriving DecidableEq, Repr

/-- An ILP Fulfill packet (fulfillment preimage and data). -/
structure FulfillPacket where
  fulfillment : Bytes
  data : Ciphertext
deriving DecidableEq, Repr

/-- The reply to a dispatched Prepare: `Result<Fulfill, Reject>`. -/
inductive IlpReply where
  | fulfillReply (fulfill : FulfillPacket)
  | rejectReply (reject : RejectPacket)
deriving DecidableEq, Repr

/-- An ILP Prepare packet as built by the sender. -/
structure PreparePacket where
  destination : Address
  amount : Nat
  execution_condition : Condition
  expires_at : Nat
  data : Ciphertext
deriving DecidableEq, Repr

/-- Errors surfaced by `send_money` (error.rs variants used by client.rs). -/
inductive Error where
  | SendMoneyError (msg : String)
  | TimeoutError (msg : String)
deriving DecidableEq, Repr

/-- Checked `u64` subtraction: `none` exactly when the Rust `-` would
underflow and panic. -/
def checkedSub (a b : Nat) : Option Nat :=
  if b ≤ a then some (a - b) else none

/-- Modelled from the spec: congestion.rs is not under the verified sources.
The controller tracks the in-flight reservation against a capacity
`max_in_flight`; the AIMD growth/decay parameters are left unspecified by the
spec, and none of the verified claims depend on them, so `fulfill` grows
capacity additively and `reject` leaves it (the precise adjustment is
irrelevant to the claims). -/
structure CongestionController where
  max_in_flight : Nat
  amount_in_flight : Nat
deriving DecidableEq, Repr

/-- Modelled from the spec: construction from the initial capacity and an
initial-packet-size hint (the `f64` growth factor is dropped). -/
def CongestionController.new (start_amount : Nat) (_increase_amount : Nat) :
    CongestionController :=
  { max_in_flight := start_amount, amount_in_flight := 0 }

/-- Modelled from the spec: room available for a new Prepare. -/
def CongestionController.get_max_amount (c : CongestionController) : Nat :=
  c.max_in_flight - c.amount_in_flight

/-- Modelled from the spec: reserve `amount` against the capacity. -/
def CongestionController.prepare (c : CongestionController) (amount : Nat) :
    CongestionController :=
  { c with amount_in_flight := c.amount_in_flight + amount }

/-- Modelled from the spec: release the reservation and grow capacity. -/
def CongestionController.fulfill (c : CongestionController) (amount : Nat) :
    CongestionController :=
  { max_in_flight := c.max_in_flight + amount,
    amount_in_flight := c.amount_in_flight - amount }

/-- Modelled from the spec: release the reservation on a reject. -/
def CongestionController.reject (c : CongestionController) (amount : Nat)
    (_reject : RejectPacket) : CongestionController :=
  { c with amount_in_flight := c.amount_in_flight - amount }

/-- The `StreamDelivery` receipt of client.rs (field `from`/`to` renamed to
`from_addr`/`to_addr`: `from` is a Lean keyword). -/
structure StreamDelivery where
  from_addr : Address
  to_addr : Address
  source_asset_scale : Nat
  source_asset_code : String
  source_amount : Nat
  sent_amount : Nat
  in_flight_amount : Nat
  delivered_amount : Nat
  destination_asset_scale : Option Nat
  destination_asset_code : Option String
deriving DecidableEq, Repr

/-- The mutable `StreamPayment` state of client.rs. -/
structure StreamPayment where
  congestion_controller : CongestionController
  receipt : StreamDelivery
  should_send_source_account : Bool
  sequence : Nat
  fulfilled_packets : Nat
  rejected_packets : Nat
  last_fulfill_time : Nat
deriving DecidableEq, Repr

/-- `StreamPayment::get_amount_available_to_send`:
`source_amount - sent_amount` (unchecked in the source). -/
def StreamPayment.get_amount_available_to_send (p : StreamPayment) :
    Option Nat :=
  checkedSub p.receipt.source_amount p.receipt.sent_amount

/-- `StreamPayment::apply_prepare`: pick
`min(available_to_send, congestion max)`, reserve it, and add it to
`sent_amount` and `in_flight_amount`; returns the amount and the new state. -/
def StreamPayment.apply_prepare (p : StreamPayment) :
    Option (Nat × StreamPayment) := do
  let available ← p.get_amount_available_to_send
  let amount := min available p.congestion_controller.get_max_amount
  some (amount,
    { p with
      congestion_controller := p.congestion_controller.prepare amount,
      receipt :=
        { p.receipt with
          sent_amount := p.receipt.sent_amount + amount,
          in_flight_amount := p.receipt.in_flight_amount + amount } })

/-- `StreamPayment::apply_fulfill`: release the congestion reservation,
subtract from `in_flight_amount` (unchecked in the source), add the
destination amount to `delivered_amount`, stamp `last_fulfill_time` with the
current time, count the fulfilled packet. -/
def StreamPayment.apply_fulfill (p : StreamPayment)
    (source_amount destination_amount now : Nat) : Option StreamPayment := do
  let inFlight ← checkedSub p.receipt.in_flight_amount source_amount
  some
    { p with
      congestion_controller := p.congestion_controller.fulfill source_amount,
      receipt :=
        { p.receipt with
          in_flight_amount := inFlight,
          delivered_amount := p.receipt.delivered_amount + destination_amount },
      last_fulfill_time := now,
      fulfilled_packets := p.fulfilled_packets + 1 }

/-- `StreamPayment::apply_reject`: release the congestion reservation and
subtract the amount from both `sent_amount` and `in_flight_amount`
(unchecked in the source), count the rejected packet. -/
def StreamPayment.apply_reject (p : StreamPayment) (amount : Nat)
    (reject : RejectPacket) : Option StreamPayment := do
  let sent ← checkedSub p.receipt.sent_amount amount
  let inFlight ← checkedSub p.receipt.in_flight_amount amount
  some
    { p with
      congestion_controller := p.congestion_controller.reject amount reject,
      receipt :=
        { p.receipt with
          sent_amount := sent,
          in_flight_amount := inFlight },
      rejected_packets := p.rejected_packets + 1 }

/-- `StreamPayment::set_destination_asset_details`. -/
def StreamPayment.set_destination_asset_details (p : StreamPayment)
    (asset_code : String) (asset_scale : Nat) : StreamPayment :=
  { p with
    receipt :=
      { p.receipt with
        destination_asset_code := some asset_code,
        destination_asset_scale := some asset_scale } }

/-- `StreamPayment::next_sequence`: return the current sequence number and
increment it. -/
def StreamPayment.next_sequence (p : StreamPayment) : Nat × StreamPayment :=
  (p.sequence, { p with sequence := p.sequence + 1 })

/-- `StreamPayment::is_complete`:
`(sent_amount - in_flight_amount) >= source_amount` (unchecked subtraction). -/
def StreamPayment.is_complete (p : StreamPayment) : Option Bool :=
  (checkedSub p.receipt.sent_amount p.receipt.in_flight_amount).map
    (fun fulfilled => decide (p.receipt.source_amount ≤ fulfilled))

/-- `StreamPayment::is_max_in_flight`. -/
def StreamPayment.is_max_in_flight (p : StreamPayment) : Bool :=
  p.congestion_controller.get_max_amount == 0

/-- `MAX_TIME_SINCE_LAST_FULFILL` (30 s), in the model's time units. -/
def maxTimeSinceLastFulfill : Nat := 30

/-- The initial `StreamPayment` built at the top of `send_money`
(client.rs lines 175–195). -/
def initial_payment (from_addr to_addr : Address) (source_asset_scale : Nat)
    (source_asset_code : String) (source_amount : Nat) (now : Nat) :
    StreamPayment :=
  { congestion_controller :=
      CongestionController.new source_amount (source_amount / 10),
    receipt :=
      { from_addr := from_addr,
        to_addr := to_addr,
        source_asset_scale := source_asset_scale,
        source_asset_code := source_asset_code,
        source_amount := source_amount,
        sent_amount := 0,
        in_flight_amount := 0,
        delivered_amount := 0,
        destination_asset_scale := none,
        destination_asset_code := none },
    should_send_source_account := true,
    sequence := 1,
    fulfilled_packets := 0,
    rejected_packets := 0,
    last_fulfill_time := now }

/-- `get_min_destination_amount` (client.rs lines 531–572), with the rate
store injected as a function and `f64` arithmetic over `ℚ`.  Returns `none`
exactly when the source would panic: `prices[0]` / `prices[1]` index out of
bounds on the vector returned by the store. -/
def get_min_destination_amount
    (rates : List String → Except Unit (List ℚ)) (slippage : ℚ)
    (source_amount : Nat) (receipt : StreamDelivery) : Option Nat :=
  match receipt.destination_asset_code, receipt.destination_asset_scale with
  | some dest_code, some dest_scale =>
    (if receipt.source_asset_code = dest_code then
      some (1 : ℚ)
    else
      match rates [receipt.source_asset_code, dest_code] with
      | .ok prices =>
        match prices.get? 0, prices.get? 1 with
        | some p0, some p1 => some (p0 / p1)
        | _, _ => none
      | .error _ => some 0).map (fun rate =>
      -- `return 0` on an unavailable rate is modelled as rate 0: every later
      -- step maps rate 0 to amount 0, matching the early return.
      let rate := rate * (1 - slippage)
      let rate := if 0 ≤ rate then rate else 0
      let src : ℚ := (source_amount : ℚ) / 10 ^ receipt.source_asset_scale
      let dest_amount := src * rate * 10 ^ dest_scale
      dest_amount.ceil.toNat)
  | _, _ => some 0

/-- The Prepare-building phase of `send_money_packet` (client.rs lines
313–364), performed under the payment lock: assign the sequence number, build
the frames (always `StreamMoney`, plus `ConnectionNewAddress` while
`should_send_source_account`), compute the minimum destination amount,
encrypt the STREAM packet, choose the execution condition, and build the ILP
Prepare.  Returns `(prepare, sequence, min_destination_amount, payment)`;
`none` when the rate calculator panics. -/
def send_money_packet_build (secret entropy : Bytes)
    (rates : List String → Except Unit (List ℚ)) (slippage : ℚ)
    (source_amount now : Nat) (payment : StreamPayment) :
    Option (PreparePacket × Nat × Nat × StreamPayment) := do
  let (sequence, payment) := payment.next_sequence
  let frames :=
    [Frame.StreamMoney 1 1] ++
      (if payment.should_send_source_account then
        [Frame.ConnectionNewAddress payment.receipt.from_addr]
      else [])
  let min_destination_amount ←
    get_min_destination_amount rates slippage source_amount payment.receipt
  let stream_request_packet : StreamPacket :=
    { ilp_packet_type := .Prepare,
      prepare_amount := min_destination_amount,
      sequence := sequence,
      frames := frames }
  let prepare_data := intoEncrypted secret stream_request_packet
  let execution_condition :=
    if min_destination_amount > 0 then
      generate_condition secret prepare_data
    else
      random_condition entropy
  let prepare : PreparePacket :=
    { destination := payment.receipt.to_addr,
      amount := source_amount,
      execution_condition := execution_condition,
      expires_at := now + 30,
      data := prepare_data }
  some (prepare, sequence, min_destination_amount, payment)

/-- The loop of client.rs lines 410–420: scan the reply's frames and record
the destination asset details of every `ConnectionAssetDetails` frame. -/
def apply_asset_frames (frames : List Frame) (payment : StreamPayment) :
    StreamPayment :=
  frames.foldl (fun pay f =>
    match f with
    | .ConnectionAssetDetails asset_code asset_scale =>
      pay.set_destination_asset_details asset_code asset_scale
    | _ => pay) payment

/-- The claimed-amount interpretation of a reply's decrypted STREAM packet
(client.rs lines 387–433): discard on sequence mismatch, discard when the
inner packet says Reject but the outer reply was a Fulfill, otherwise clear
`should_send_source_account`, record the destination asset details the first
time, and take the reply's `prepare_amount` as the claimed amount. -/
def interpret_claimed_amount (payment : StreamPayment) (sequence : Nat)
    (packet_type : IlpPacketType)
    (stream_reply_packet : Option StreamPacket) : Nat × StreamPayment :=
  match stream_reply_packet with
  | some reply =>
    if reply.sequence ≠ sequence then
      (0, payment)
    else if reply.ilp_packet_type = .Reject ∧ packet_type = .Fulfill then
      (0, payment)
    else
      let payment := { payment with should_send_source_account := false }
      let payment :=
        if payment.receipt.destination_asset_scale = none then
          apply_asset_frames reply.frames payment
        else payment
      (reply.prepare_amount, payment)
  | none => (0, payment)

/-- The claimed amount as the spec's words describe it, for comparison with
`interpret_claimed_amount` on a Fulfill reply: the decrypted reply's
`prepare_amount` when the reply decrypts with matching sequence and a
consistent packet type (not an inner Reject under an outer Fulfill), and 0
otherwise. -/
def spec_claimed_amount (secret : Bytes) (sequence : Nat) (data : Ciphertext) :
    Nat :=
  match fromEncrypted secret data with
  | some reply =>
    if reply.sequence = sequence ∧ reply.ilp_packet_type ≠ .Reject then
      reply.prepare_amount
    else 0
  | none => 0

/-- The reply-handling phase of `send_money_packet` (client.rs lines
376–477): decrypt the reply data, interpret the claimed amount, then apply
the Fulfill (`delivered = max(min_destination_amount, claimed_amount)`) or
the Reject (absorbing Temporary / `F08` / `F99`, fatal otherwise).  `none`
when a `u64` subtraction in the apply step would panic. -/
def send_money_packet_reply (secret : Bytes) (payment : StreamPayment)
    (sequence source_amount min_destination_amount now : Nat)
    (reply : IlpReply) : Option (StreamPayment × Except Error Unit) :=
  let packet_type :=
    match reply with
    | .fulfillReply _ => IlpPacketType.Fulfill
    | .rejectReply _ => IlpPacketType.Reject
  let reply_data :=
    match reply with
    | .fulfillReply fulfill => fulfill.data
    | .rejectReply reject => reject.data
  let stream_reply_packet := fromEncrypted secret reply_data
  let (claimed_amount, payment) :=
    interpret_claimed_amount payment sequence packet_type stream_reply_packet
  match reply with
  | .fulfillReply _ => do
    let delivered_amount := max min_destination_amount claimed_amount
    let payment ← payment.apply_fulfill source_amount delivered_amount now
    some (payment, .ok ())
  | .rejectReply reject => do
    let payment ← payment.apply_reject source_amount reject
    let result : Except Error Unit :=
      if reject.code.errorClass = .Temporary then .ok ()
      else if reject.code = f08AmountTooLarge then .ok ()
      else if reject.code = f99ApplicationError then .ok ()
      else .error (.SendMoneyError
        ("Packet was rejected with error: " ++ reject.message))
    some (payment, result)

/-- The four events of the `send_money` loop. -/
inductive PaymentEvent where
  | SendMoney (amount : Nat)
  | MaxInFlight
  | CloseConnection
  | Timeout
deriving DecidableEq, Repr

/-- Event selection at the top of each `send_money` loop iteration
(client.rs lines 221–233), at wall-clock time `now`: the timeout check comes
first, then completion, then congestion, else `apply_prepare`.  Returns the
event together with the payment state after the selection (only
`apply_prepare` mutates it). -/
def selectEvent (now : Nat) (payment : StreamPayment) :
    Option (PaymentEvent × StreamPayment) :=
  if maxTimeSinceLastFulfill ≤ now - payment.last_fulfill_time then
    some (.Timeout, payment)
  else do
    let complete ← payment.is_complete
    if complete then
      some (.CloseConnection, payment)
    else if payment.is_max_in_flight then
      some (.MaxInFlight, payment)
    else do
      let (amount, payment) ← payment.apply_prepare
      some (.SendMoney amount, payment)

/-- What the loop body returns immediately for each event (client.rs lines
235–279): `Timeout` returns the timeout error, `CloseConnection` drains and
returns the receipt, the other two events continue the loop (`none`). -/
def loopEventResult (event : PaymentEvent) (payment : StreamPayment) :
    Option (Except Error StreamDelivery) :=
  match event with
  | .Timeout =>
    some (.error (.TimeoutError
      "Time since last fulfill exceeded the maximum time limit"))
  | .CloseConnection => some (.ok payment.receipt)
  | .SendMoney _ => none
  | .MaxInFlight => none

/-- `k` successive calls of `next_sequence`, returning the list of assigned
sequence numbers in order of assignment and the final state. -/
def nextSequenceRun : Nat → StreamPayment → List Nat × StreamPayment
  | 0, p => ([], p)
  | k + 1, p =>
    let (s, p') := p.next_sequence
    let (rest, p'') := nextSequenceRun k p'
    (s :: rest, p'')

/-- The two accounting invariants of the payment state (spec §3, invariants
1 and 2). -/
def PaymentInv (p : StreamPayment) : Prop :=
  p.receipt.sent_amount ≤ p.receipt.source_amount ∧
  p.receipt.in_flight_amount ≤ p.receipt.sent_amount

instance (p : StreamPayment) : Decidable (PaymentInv p) :=
  inferInstanceAs (Decidable (_ ∧ _))

/-- Ghost trace state for the run discipline of the payment: the payment
state together with the list of packets issued by `apply_prepare`, each
recorded as its source amount and whether its reply has been settled. -/
structure TraceState where
  payment : StreamPayment
  packets : List (Nat × Bool)
deriving DecidableEq, Repr

/-- Total source amount of the packets still awaiting a reply. -/
def pendingSum (packets : List (Nat × Bool)) : Nat :=
  ((packets.filter (fun pk => !pk.2)).map Prod.fst).sum

/-- One step of a payment run: a new Prepare, or the Fulfill / Reject reply
of the `idx`-th issued packet. -/
inductive RunOp where
  | prepareOp
  | fulfillOp (idx destination_amount now : Nat)
  | rejectOp (idx : Nat) (reject : RejectPacket)
deriving Repr

/-- The run discipline: a reply settles a packet that was previously issued
by `apply_prepare` and has not been settled before. -/
def opOk (t : TraceState) : RunOp → Bool
  | .prepareOp => true
  | .fulfillOp idx _ _ =>
    match t.packets.get? idx with
    | some (_, settled) => !settled
    | none => false
  | .rejectOp idx _ =>
    match t.packets.get? idx with
    | some (_, settled) => !settled
    | none => false

/-- Execute one run step: `apply_prepare` records the issued packet;
`apply_fulfill` / `apply_reject` settle the referenced packet with exactly
the source amount that `apply_prepare` added for it.  `none` when the
discipline is violated or a `u64` subtraction underflows. -/
def traceStep (t : TraceState) : RunOp → Option TraceState
  | .prepareOp =>
    t.payment.apply_prepare.map fun r =>
      ⟨r.2, t.packets ++ [(r.1, false)]⟩
  | .fulfillOp idx destination_amount now =>
    match t.packets.get? idx with
    | some (amt, false) =>
      (t.payment.apply_fulfill amt destination_amount now).map fun p =>
        ⟨p, t.packets.set idx (amt, true)⟩
    | _ => none
  | .rejectOp idx reject =>
    match t.packets.get? idx with
    | some (amt, false) =>
      (t.payment.apply_reject amt reject).map fun p =>
        ⟨p, t.packets.set idx (amt, true)⟩
    | _ => none

/-- Trace invariant: the in-flight amount is exactly the total of the
unsettled packets, and the accounting invariants hold. -/
def TraceInv (t : TraceState) : Prop :=
  t.payment.receipt.in_flight_amount = pendingSum t.packets ∧
  PaymentInv t.payment

instance (t : TraceState) : Decidable (TraceInv t) :=
  inferInstanceAs (Decidable (_ ∧ _))

/-! ### Concrete states used by the closed witness and counterexample
theorems -/

/-- A shared secret for the concrete instances. -/
def cexSecret : Bytes := [7, 7, 7]

/-- A freshly created payment of 100 source units. -/
def cexPayment : StreamPayment :=
  initial_payment "example.alice" "example.bob" 9 "XYZ" 100 0

/-- A decrypted STREAM reply whose sequence (2) differs from the request's
sequence (1). -/
def cexMismatchReply : StreamPacket :=
  { sequence := 2, ilp_packet_type := .Fulfill, prepare_amount := 10,
    frames := [] }

/-- A decrypted STREAM reply matching the request's sequence 1. -/
def cexMatchReply : StreamPacket :=
  { sequence := 1, ilp_packet_type := .Fulfill, prepare_amount := 10,
    frames := [Frame.ConnectionAssetDetails "EUR" 4] }

/-- `cexPayment` after one `apply_prepare` (10 units in flight). -/
def cexPaymentInFlight : StreamPayment :=
  { cexPayment with
    receipt :=
      { cexPayment.receipt with
        sent_amount := 10,
        in_flight_amount := 10 },
    congestion_controller := { max_in_flight := 100, amount_in_flight := 10 } }

/-- A reject with a final, fatal code. -/
def cexRejectF00 : RejectPacket :=
  { code := ⟨'F', '0', '0'⟩, message := "bad request",
    triggered_by := "example.connector", data := .garbled [0] }

/-- A receipt whose destination asset details are known and differ from the
source asset. -/
def cexReceiptDest : StreamDelivery :=
  { from_addr := "example.alice", to_addr := "example.bob",
    source_asset_scale := 2, source_asset_code := "USD",
    source_amount := 100, sent_amount := 0, in_flight_amount := 0,
    delivered_amount := 0, destination_asset_scale := some 4,
    destination_asset_code := some "EUR" }

/-- A rate store returning one price per requested code. -/
def cexRates : List String → Except Unit (List ℚ) :=
  fun _ => .ok [2, 4]

/-- A rate store returning a single price regardless of the request. -/
def cexRatesShort : List String → Except Unit (List ℚ) :=
  fun _ => .ok [2]

/-- A trace with one unsettled packet of 10 units in flight. -/
def cexTrace : TraceState :=
  { payment := cexPaymentInFlight, packets := [(10, false)] }

/-- Entropy consumed by a concrete `random_condition()` draw. -/
def cexEntropy : Bytes := [9]

/-- The STREAM request packet that `send_money_packet` builds from
`cexPayment` for sequence 1 (destination asset unknown, so
`prepare_amount = 0`). -/
def cexStreamRequest : StreamPacket :=
  { ilp_packet_type := .Prepare, prepare_amount := 0, sequence := 1,
    frames := [Frame.StreamMoney 1 1,
      Frame.ConnectionNewAddress "example.alice"] }

/-- The ILP Prepare built from `cexPayment` at time 0 for 10 source units:
the destination asset is unknown, so the condition is a random one. -/
def cexPrepare : PreparePacket :=
  { destination := "example.bob", amount := 10,
    execution_condition := random_condition cexEntropy, expires_at := 30,
    data := intoEncrypted cexSecret cexStreamRequest }

/-- `cexPayment` after assigning sequence number 1. -/
def cexPaymentSeq2 : StreamPayment :=
  { cexPayment with sequence := 2 }

/-- A Fulfill reply carrying the encrypted matching STREAM reply. -/
def cexFulfillReply : FulfillPacket :=
  { fulfillment := [], data := intoEncrypted cexSecret cexMatchReply }

/-- `cexPaymentInFlight` after interpreting `cexFulfillReply` (flag cleared,
asset details EUR/4 recorded, claimed amount 10) and applying the fulfill of
its 10 in-flight units at time 5. -/
def cexPaymentFulfilled : StreamPayment :=
  { congestion_controller := { max_in_flight := 110, amount_in_flight := 0 },
    receipt :=
      { cexPayment.receipt with
        sent_amount := 10,
        in_flight_amount := 0,
        delivered_amount := 10,
        destination_asset_code := some "EUR",
        destination_asset_scale := some 4 },
    should_send_source_account := false,
    sequence := 1,
    fulfilled_packets := 1,
    rejected_packets := 0,
    last_fulfill_time := 5 }

/-- `cexPaymentInFlight` after the `cexRejectF00` reject of its 10 in-flight
units (the reject's data is garbled, so no STREAM state change). -/
def cexPaymentRejected : StreamPayment :=
  { congestion_controller := { max_in_flight := 100, amount_in_flight := 0 },
    receipt :=
      { cexPayment.receipt with
        sent_amount := 0,
        in_flight_amount := 0 },
    should_send_source_account := true,
    sequence := 1,
    fulfilled_packets := 0,
    rejected_packets := 1,
    last_fulfill_time := 0 }

/-! ## Helper lemmas -/

/-- Scanning asset frames only rewrites the destination asset fields of the
receipt. -/
lemma apply_asset_frames_shape (frames : List Frame) (p : StreamPayment) :
    ∃ dc ds, apply_asset_frames frames p =
      { p with
        receipt := { p.receipt with
          destination_asset_code := dc, destination_asset_scale := ds } } := by
  induction frames generalizing p with
  | nil =>
    exact ⟨p.receipt.destination_asset_code,
      p.receipt.destination_asset_scale, rfl⟩
  | cons f rest ih =>
    cases f with
    | ConnectionAssetDetails asset_code asset_scale =>
      obtain ⟨dc, ds, h⟩ :=
        ih (p.set_destination_asset_details asset_code asset_scale)
      refine ⟨dc, ds, ?_⟩
      simpa [apply_asset_frames,
        StreamPayment.set_destination_asset_details] using h
    | StreamMoney stream_id shares =>
      obtain ⟨dc, ds, h⟩ := ih p
      exact ⟨dc, ds, by simpa [apply_asset_frames] using h⟩
    | ConnectionNewAddress source_account =>
      obtain ⟨dc, ds, h⟩ := ih p
      exact ⟨dc, ds, by simpa [apply_asset_frames] using h⟩
    | ConnectionClose code message =>
      obtain ⟨dc, ds, h⟩ := ih p
      exact ⟨dc, ds, by simpa [apply_asset_frames] using h⟩

/-- Interpreting a reply only rewrites `should_send_source_account` and the
destination asset fields of the receipt. -/
lemma interpret_claimed_amount_shape (payment : StreamPayment)
    (sequence : Nat) (packet_type : IlpPacketType)
    (dec : Option StreamPacket) :
    ∃ b dc ds, (interpret_claimed_amount payment sequence packet_type dec).2 =
      { payment with
        should_send_source_account := b,
        receipt := { payment.receipt with
          destination_asset_code := dc, destination_asset_scale := ds } } := by
  cases dec with
  | none =>
    exact ⟨payment.should_send_source_account,
      payment.receipt.destination_asset_code,
      payment.receipt.destination_asset_scale, rfl⟩
  | some r =>
    by_cases h1 : r.sequence ≠ sequence
    · exact ⟨payment.should_send_source_account,
        payment.receipt.destination_asset_code,
        payment.receipt.destination_asset_scale,
        by simp [interpret_claimed_amount, if_pos h1]⟩
    · by_cases h2 : r.ilp_packet_type = .Reject ∧ packet_type = .Fulfill
      · exact ⟨payment.should_send_source_account,
          payment.receipt.destination_asset_code,
          payment.receipt.destination_asset_scale,
          by simp [interpret_claimed_amount, if_neg h1, if_pos h2]⟩
      · by_cases h3 : payment.receipt.destination_asset_scale = none
        · obtain ⟨dc, ds, hf⟩ := apply_asset_frames_shape r.frames
            { payment with should_send_source_account := false }
          refine ⟨false, dc, ds, ?_⟩
          simpa [interpret_claimed_amount, if_neg h1, if_neg h2, h3] using hf
        · refine ⟨false, payment.receipt.destination_asset_code,
            payment.receipt.destination_asset_scale, ?_⟩
          simp [interpret_claimed_amount, if_neg h1, if_neg h2, h3]

/-- The fields of the payment that reply interpretation never touches. -/
lemma interpret_claimed_amount_preserves (payment : StreamPayment)
    (sequence : Nat) (packet_type : IlpPacketType)
    (dec : Option StreamPacket) :
    (interpret_claimed_amount payment sequence packet_type dec).2.receipt.sent_amount
        = payment.receipt.sent_amount ∧
    (interpret_claimed_amount payment sequence packet_type dec).2.receipt.in_flight_amount
        = payment.receipt.in_flight_amount ∧
    (interpret_claimed_amount payment sequence packet_type dec).2.receipt.delivered_amount
        = payment.receipt.delivered_amount ∧
    (interpret_claimed_amount payment sequence packet_type dec).2.receipt.source_amount
        = payment.receipt.source_amount ∧
    (interpret_claimed_amount payment sequence packet_type dec).2.last_fulfill_time
        = payment.last_fulfill_time ∧
    (interpret_claimed_amount payment sequence packet_type dec).2.sequence
        = payment.sequence := by
  obtain ⟨b, dc, ds, h⟩ :=
    interpret_claimed_amount_shape payment sequence packet_type dec
  rw [h]
  exact ⟨rfl, rfl, rfl, rfl, rfl, rfl⟩

/-- Reply interpretation can only lower `should_send_source_account`. -/
lemma interpret_claimed_amount_flag_cases (payment : StreamPayment)
    (sequence : Nat) (packet_type : IlpPacketType)
    (dec : Option StreamPacket) :
    (interpret_claimed_amount payment sequence packet_type dec).2.should_send_source_account
        = payment.should_send_source_account ∨
    (interpret_claimed_amount payment sequence packet_type dec).2.should_send_source_account
        = false := by
  cases dec with
  | none => exact Or.inl rfl
  | some r =>
    by_cases h1 : r.sequence ≠ sequence
    · exact Or.inl (by simp [interpret_claimed_amount, if_pos h1])
    · by_cases h2 : r.ilp_packet_type = .Reject ∧ packet_type = .Fulfill
      · exact Or.inl (by simp [interpret_claimed_amount, if_neg h1, if_pos h2])
      · right
        by_cases h3 : payment.receipt.destination_asset_scale = none
        · obtain ⟨dc, ds, hf⟩ := apply_asset_frames_shape r.frames
            { payment with should_send_source_account := false }
          simp [interpret_claimed_amount, if_neg h1, if_neg h2, h3, hf]
        · simp [interpret_claimed_amount, if_neg h1, if_neg h2, h3]

/-- On a Fulfill reply the claimed amount computed by
`interpret_claimed_amount` is exactly the spec's description. -/
lemma interpret_fst_fulfill (payment : StreamPayment) (seq : Nat)
    (secret : Bytes) (data : Ciphertext) :
    (interpret_claimed_amount payment seq .Fulfill
        (fromEncrypted secret data)).1
      = spec_claimed_amount secret seq data := by
  unfold spec_claimed_amount
  cases hd : fromEncrypted secret data with
  | none => rfl
  | some r =>
    by_cases h1 : r.sequence ≠ seq
    · simp [interpret_claimed_amount, if_pos h1, h1]
    · have h1' : r.sequence = seq := not_not.mp h1
      by_cases h2 : r.ilp_packet_type = IlpPacketType.Reject
      · have h2' : r.ilp_packet_type = IlpPacketType.Reject ∧
            IlpPacketType.Fulfill = IlpPacketType.Fulfill := ⟨h2, rfl⟩
        simp [interpret_claimed_amount, if_neg h1, if_pos h2', h1', h2]
      · have h2' : ¬(r.ilp_packet_type = IlpPacketType.Reject ∧
            IlpPacketType.Fulfill = IlpPacketType.Fulfill) := by
          intro hcon
          exact h2 hcon.1
        simp [interpret_claimed_amount, if_neg h1, if_neg h2', h1', h2]

/-! ## Claims -/

/-- C1: the execution condition of a money packet built by
`send_money_packet` is `generate_condition(shared_secret, prepare_data)`
when the computed minimum destination amount is positive and a
`random_condition()` draw when it is 0; a random condition is never equal to
any generated condition, so the packet is unfulfillable. -/
theorem c1_condition_choice (secret entropy : Bytes)
    (rates : List String → Except Unit (List ℚ)) (slippage : ℚ)
    (source_amount now : Nat) (payment : StreamPayment)
    (prepare : PreparePacket) (sequence min_destination_amount : Nat)
    (payment' : StreamPayment)
    (h : send_money_packet_build secret entropy rates slippage source_amount
        now payment = some (prepare, sequence, min_destination_amount,
          payment')) :
    (0 < min_destination_amount →
      prepare.execution_condition = generate_condition secret prepare.data) ∧
    (min_destination_amount = 0 →
      prepare.execution_condition = random_condition entropy) ∧
    (∀ s d, random_condition entropy ≠ generate_condition s d) := by
  simp only [send_money_packet_build, StreamPayment.next_sequence,
    Option.bind_eq_bind, Option.bind_eq_some, Option.some.injEq,
    Prod.mk.injEq] at h
  obtain ⟨minD, hmin, hprep, hseq, hminD, hpay⟩ := h
  subst hminD
  subst hprep
  refine ⟨fun hpos => ?_, fun hzero => ?_, fun s d => by
    simp [random_condition, generate_condition]⟩
  · simp [hpos]
  · simp [hzero]

/-- Witness for C1: a freshly created payment has no destination asset
details, the minimum destination amount is 0, and the packet gets a random
condition. -/
theorem c1_condition_choice_witness :
    send_money_packet_build cexSecret cexEntropy cexRates (1 / 100) 10 0
        cexPayment = some (cexPrepare, 1, 0, cexPaymentSeq2) ∧
    cexPrepare.execution_condition = random_condition cexEntropy :=
  ⟨by decide,
    (c1_condition_choice cexSecret cexEntropy cexRates (1 / 100) 10 0
      cexPayment cexPrepare 1 0 cexPaymentSeq2 (by decide)).2.1 rfl⟩

/-- C2: on a Fulfill reply, `send_money_packet` calls
`apply_fulfill(source_amount, max(min_destination_amount, claimed_amount))`
on the interpreted payment state, where `claimed_amount` is the decrypted
reply's `prepare_amount` when the reply decrypts with matching sequence and
a consistent packet type and 0 otherwise; hence `delivered_amount` grows by
at least the minimum destination amount. -/
theorem c2_fulfill_delivers_at_least_minimum (secret : Bytes)
    (payment : StreamPayment)
    (sequence source_amount min_destination_amount now : Nat)
    (fulfill : FulfillPacket) (payment' : StreamPayment)
    (result : Except Error Unit)
    (h : send_money_packet_reply secret payment sequence source_amount
        min_destination_amount now (.fulfillReply fulfill)
      = some (payment', result)) :
    ((interpret_claimed_amount payment sequence .Fulfill
        (fromEncrypted secret fulfill.data)).2.apply_fulfill source_amount
        (max min_destination_amount
          (spec_claimed_amount secret sequence fulfill.data)) now
      = some payment') ∧
    payment'.receipt.delivered_amount
      = payment.receipt.delivered_amount
        + max min_destination_amount
            (spec_claimed_amount secret sequence fulfill.data) ∧
    payment.receipt.delivered_amount + min_destination_amount
      ≤ payment'.receipt.delivered_amount ∧
    result = .ok () := by
  rcases hI : interpret_claimed_amount payment sequence .Fulfill
    (fromEncrypted secret fulfill.data) with ⟨ca, pmid⟩
  have hca : ca = spec_claimed_amount secret sequence fulfill.data := by
    have := interpret_fst_fulfill payment sequence secret fulfill.data
    rw [hI] at this
    exact this
  have hdel : pmid.receipt.delivered_amount
      = payment.receipt.delivered_amount := by
    have := (interpret_claimed_amount_preserves payment sequence .Fulfill
      (fromEncrypted secret fulfill.data)).2.2.1
    rw [hI] at this
    exact this
  simp only [send_money_packet_reply, hI, Option.bind_eq_bind,
    Option.bind_eq_some, Option.some.injEq, Prod.mk.injEq] at h
  obtain ⟨p1, hp1, hpay, hres⟩ := h
  subst hpay
  have hdel1 : p1.receipt.delivered_amount
      = pmid.receipt.delivered_amount
        + max min_destination_amount ca := by
    simp only [StreamPayment.apply_fulfill, checkedSub,
      Option.bind_eq_bind] at hp1
    split at hp1
    · simp only [Option.some_bind, Option.some.injEq] at hp1
      rw [← hp1]
    · simp at hp1
  refine ⟨?_, ?_, ?_, hres.symm⟩
  · rw [← hca]
    exact hp1
  · rw [hdel1, hdel, hca]
  · rw [hdel1, hdel]
    have hle : min_destination_amount ≤ max min_destination_amount ca :=
      le_max_left _ _
    omega

/-- Witness for C2 at a concrete fulfilled packet: 10 units in flight,
minimum 3, the receiver claims 10, so 10 is delivered. -/
theorem c2_fulfill_delivers_at_least_minimum_witness :
    send_money_packet_reply cexSecret cexPaymentInFlight 1 10 3 5
        (.fulfillReply cexFulfillReply) = some (cexPaymentFulfilled, .ok ()) ∧
    cexPaymentFulfilled.receipt.delivered_amount
      = cexPaymentInFlight.receipt.delivered_amount
        + max 3 (spec_claimed_amount cexSecret 1 cexFulfillReply.data) :=
  ⟨rfl,
    (c2_fulfill_delivers_at_least_minimum cexSecret cexPaymentInFlight 1 10 3
      5 cexFulfillReply cexPaymentFulfilled (.ok ()) rfl).2.1⟩

/-- C3: on a Reject reply, `send_money_packet` applies
`apply_reject(source_amount, reject)` to the interpreted payment state and
returns `Ok` exactly when the code's class is Temporary or the code is
`F08_AMOUNT_TOO_LARGE` or `F99_APPLICATION_ERROR`; every other code yields a
`SendMoneyError`. -/
theorem c3_reject_classification (secret : Bytes) (payment : StreamPayment)
    (sequence source_amount min_destination_amount now : Nat)
    (reject : RejectPacket) (payment' : StreamPayment)
    (result : Except Error Unit)
    (h : send_money_packet_reply secret payment sequence source_amount
        min_destination_amount now (.rejectReply reject)
      = some (payment', result)) :
    ((interpret_claimed_amount payment sequence .Reject
        (fromEncrypted secret reject.data)).2.apply_reject source_amount
        reject = some payment') ∧
    (result = .ok () ↔
      (reject.code.errorClass = .Temporary ∨
        reject.code = f08AmountTooLarge ∨
        reject.code = f99ApplicationError)) ∧
    (result ≠ .ok () → ∃ msg, result = .error (.SendMoneyError msg)) := by
  rcases hI : interpret_claimed_amount payment sequence .Reject
    (fromEncrypted secret reject.data) with ⟨ca, pmid⟩
  simp only [send_money_packet_reply, hI, Option.bind_eq_bind,
    Option.bind_eq_some, Option.some.injEq, Prod.mk.injEq] at h
  obtain ⟨p1, hp1, hpay, hres⟩ := h
  subst hpay
  refine ⟨hp1, ?_, ?_⟩
  · rw [← hres]
    by_cases hT : reject.code.errorClass = ErrorClass.Temporary
    · simp [hT]
    · by_cases h8 : reject.code = f08AmountTooLarge
      · simp [hT, h8]
      · by_cases h9 : reject.code = f99ApplicationError
        · simp [hT, h8, h9]
        · simp [hT, h8, h9]
  · intro hne
    rw [← hres] at hne ⊢
    by_cases hT : reject.code.errorClass = ErrorClass.Temporary
    · simp [hT] at hne
    · by_cases h8 : reject.code = f08AmountTooLarge
      · simp [hT, h8] at hne
      · by_cases h9 : reject.code = f99ApplicationError
        · simp [hT, h8, h9] at hne
        · exact ⟨"Packet was rejected with error: " ++ reject.message,
            by simp [hT, h8, h9]⟩

/-- Witness for C3 at a concrete `F00_BAD_REQUEST` reject: `apply_reject` is
applied and the result is fatal. -/
theorem c3_reject_classification_witness :
    ((interpret_claimed_amount cexPaymentInFlight 1 .Reject
        (fromEncrypted cexSecret cexRejectF00.data)).2.apply_reject 10
        cexRejectF00 = some cexPaymentRejected) :=
  (c3_reject_classification cexSecret cexPaymentInFlight 1 10 3 5 cexRejectF00
    cexPaymentRejected
    (.error (.SendMoneyError "Packet was rejected with error: bad request"))
    rfl).1

/-- C5: a decrypted STREAM reply whose sequence differs from the request's
sequence is treated as `claimed_amount = 0` and leaves the payment state —
in particular `should_send_source_account` and the destination asset
code/scale — entirely unchanged. -/
theorem c5_sequence_mismatch_discards_reply (payment : StreamPayment)
    (sequence : Nat) (packet_type : IlpPacketType) (reply : StreamPacket)
    (h : reply.sequence ≠ sequence) :
    interpret_claimed_amount payment sequence packet_type (some reply)
      = (0, payment) := by
  simp [interpret_claimed_amount, if_pos h]

/-- Witness for C5 at a concrete mismatched reply. -/
theorem c5_sequence_mismatch_discards_reply_witness :
    cexMismatchReply.sequence ≠ 1 ∧
    interpret_claimed_amount cexPayment 1 .Fulfill (some cexMismatchReply)
      = (0, cexPayment) :=
  ⟨by decide,
    c5_sequence_mismatch_discards_reply cexPayment 1 .Fulfill cexMismatchReply
      (by decide)⟩

/-- C4 counterexample: a reply whose STREAM data decrypts successfully but
carries a mismatched sequence leaves `should_send_source_account` at `true`,
so the flag is not yet false after the first successfully-decrypted STREAM
reply. -/
theorem c4_counterexample :
    fromEncrypted cexSecret (intoEncrypted cexSecret cexMismatchReply)
        = some cexMismatchReply ∧
    (interpret_claimed_amount cexPayment 1 .Fulfill
        (fromEncrypted cexSecret
          (intoEncrypted cexSecret cexMismatchReply))).2.should_send_source_account
        = true := by
  exact ⟨by decide, by decide⟩

/-- C4 (amended): `should_send_source_account` starts true, no operation of
the payment ever resets it to true, and it is false after interpreting any
reply whose STREAM data decrypts with the request's sequence and without the
inner-Reject/outer-Fulfill inconsistency. -/
theorem c4_should_send_source_account_monotone :
    (∀ from_addr to_addr source_asset_scale source_asset_code source_amount
        now,
      (initial_payment from_addr to_addr source_asset_scale source_asset_code
        source_amount now).should_send_source_account = true) ∧
    (∀ payment sequence packet_type dec,
      (interpret_claimed_amount payment sequence packet_type
          dec).2.should_send_source_account = true →
      payment.should_send_source_account = true) ∧
    (∀ (p : StreamPayment) amount p', p.apply_prepare = some (amount, p') →
      p'.should_send_source_account = p.should_send_source_account) ∧
    (∀ (p : StreamPayment) src dst now p', p.apply_fulfill src dst now = some p' →
      p'.should_send_source_account = p.should_send_source_account) ∧
    (∀ (p : StreamPayment) amount reject p', p.apply_reject amount reject = some p' →
      p'.should_send_source_account = p.should_send_source_account) ∧
    (∀ payment sequence packet_type (reply : StreamPacket),
      reply.sequence = sequence →
      ¬(reply.ilp_packet_type = .Reject ∧ packet_type = .Fulfill) →
      (interpret_claimed_amount payment sequence packet_type
          (some reply)).2.should_send_source_account = false) := by
  refine ⟨fun _ _ _ _ _ _ => rfl, ?_, ?_, ?_, ?_, ?_⟩
  · intro payment sequence packet_type dec h
    rcases interpret_claimed_amount_flag_cases payment sequence packet_type
      dec with hc | hc
    · rw [← hc]; exact h
    · rw [hc] at h; exact absurd h (by simp)
  · intro p amount p' h
    simp only [StreamPayment.apply_prepare, StreamPayment.get_amount_available_to_send,
      checkedSub, Option.bind_eq_bind] at h
    split at h
    · simp only [Option.some_bind, Option.some.injEq, Prod.mk.injEq] at h
      rw [← h.2]
    · simp at h
  · intro p src dst now p' h
    simp only [StreamPayment.apply_fulfill, checkedSub, Option.bind_eq_bind] at h
    split at h
    · simp only [Option.some_bind, Option.some.injEq] at h
      rw [← h]
    · simp at h
  · intro p amount reject p' h
    simp only [StreamPayment.apply_reject, checkedSub, Option.bind_eq_bind] at h
    split at h
    · split at h
      · simp only [Option.some_bind, Option.some.injEq] at h
        rw [← h]
      · simp at h
    · simp at h
  · intro payment sequence packet_type reply h1 h2
    have h1' : ¬reply.sequence ≠ sequence := by simpa using h1
    by_cases h3 : payment.receipt.destination_asset_scale = none
    · obtain ⟨dc, ds, hf⟩ := apply_asset_frames_shape reply.frames
        { payment with should_send_source_account := false }
      simp [interpret_claimed_amount, if_neg h1', if_neg h2, h3, hf]
    · simp [interpret_claimed_amount, if_neg h1', if_neg h2, h3]

/-- Witness for the amended C4 at concrete inputs: interpreting a matching,
consistent reply clears the flag, and a payment whose flag is already false
keeps it false through interpretation. -/
theorem c4_should_send_source_account_monotone_witness :
    (interpret_claimed_amount cexPayment 1 .Fulfill
        (some cexMatchReply)).2.should_send_source_account = false :=
  c4_should_send_source_account_monotone.2.2.2.2.2 cexPayment 1 .Fulfill
    cexMatchReply (by decide) (by decide)

/-- C6: under the accounting invariants `sent_amount ≤ source_amount` and
`in_flight_amount ≤ sent_amount`, `apply_prepare` succeeds and preserves
them, and `apply_fulfill` / `apply_reject` preserve them whenever the
settled amount is at most the in-flight amount. -/
theorem c6_accounting_invariants (p : StreamPayment) (h : PaymentInv p) :
    (∀ amount p', p.apply_prepare = some (amount, p') → PaymentInv p') ∧
    p.apply_prepare.isSome = true ∧
    (∀ src dst now p', src ≤ p.receipt.in_flight_amount →
      p.apply_fulfill src dst now = some p' → PaymentInv p') ∧
    (∀ amount reject p', amount ≤ p.receipt.in_flight_amount →
      p.apply_reject amount reject = some p' → PaymentInv p') := by
  obtain ⟨hs, hi⟩ := h
  refine ⟨?_, ?_, ?_, ?_⟩
  · intro amount p' hp
    simp only [StreamPayment.apply_prepare,
      StreamPayment.get_amount_available_to_send, checkedSub,
      Option.bind_eq_bind, if_pos hs, Option.some_bind, Option.some.injEq,
      Prod.mk.injEq] at hp
    obtain ⟨hamt, hp'⟩ := hp
    subst hp'
    have h1 : amount ≤ p.receipt.source_amount - p.receipt.sent_amount := by
      rw [← hamt]
      exact Nat.min_le_left _ _
    rw [hamt]
    constructor
    · show p.receipt.sent_amount + amount ≤ p.receipt.source_amount
      omega
    · show p.receipt.in_flight_amount + amount
        ≤ p.receipt.sent_amount + amount
      omega
  · simp [StreamPayment.apply_prepare,
      StreamPayment.get_amount_available_to_send, checkedSub, hs]
  · intro src dst now p' hle hp
    simp only [StreamPayment.apply_fulfill, checkedSub, Option.bind_eq_bind,
      if_pos hle, Option.some_bind, Option.some.injEq] at hp
    subst hp
    constructor
    · show p.receipt.sent_amount ≤ p.receipt.source_amount
      exact hs
    · show p.receipt.in_flight_amount - src ≤ p.receipt.sent_amount
      omega
  · intro amount reject p' hle hp
    have hle2 : amount ≤ p.receipt.sent_amount := le_trans hle hi
    simp only [StreamPayment.apply_reject, checkedSub, Option.bind_eq_bind,
      if_pos hle2, if_pos hle, Option.some_bind, Option.some.injEq] at hp
    subst hp
    constructor
    · show p.receipt.sent_amount - amount ≤ p.receipt.source_amount
      omega
    · show p.receipt.in_flight_amount - amount
        ≤ p.receipt.sent_amount - amount
      omega

/-- Witness for C6: the invariants hold after rejecting the concrete
in-flight packet. -/
theorem c6_accounting_invariants_witness : PaymentInv cexPaymentRejected :=
  (c6_accounting_invariants cexPaymentInFlight (by decide)).2.2.2 10
    cexRejectF00 cexPaymentRejected (by decide) rfl

/-- C7: starting at any state, `k` calls of `next_sequence` return
consecutive numbers starting at the state's counter. -/
lemma nextSequenceRun_spec (k : Nat) (p : StreamPayment) :
    (nextSequenceRun k p).1 = List.range' p.sequence k ∧
    (nextSequenceRun k p).2.sequence = p.sequence + k := by
  induction k generalizing p with
  | zero => exact ⟨rfl, rfl⟩
  | succ k ih =>
    obtain ⟨ih1, ih2⟩ := ih { p with sequence := p.sequence + 1 }
    constructor
    · show p.sequence ::
        (nextSequenceRun k { p with sequence := p.sequence + 1 }).1
          = List.range' p.sequence (k + 1)
      rw [List.range'_succ, ih1]
    · show (nextSequenceRun k { p with sequence := p.sequence + 1 }).2.sequence
        = p.sequence + (k + 1)
      rw [ih2]
      show p.sequence + 1 + k = p.sequence + (k + 1)
      omega

/-- C7: across a whole payment the sequence numbers assigned by
`next_sequence` are exactly `1, 2, …, k` in order of assignment with no gaps
or duplicates: the counter of a fresh payment starts at 1 and every call
returns the current value and increments it by exactly one. -/
theorem c7_sequence_numbers (from_addr to_addr : Address)
    (source_asset_scale : Nat) (source_asset_code : String)
    (source_amount now k : Nat) :
    (nextSequenceRun k (initial_payment from_addr to_addr source_asset_scale
        source_asset_code source_amount now)).1 = List.range' 1 k ∧
    (nextSequenceRun k (initial_payment from_addr to_addr source_asset_scale
        source_asset_code source_amount now)).2.sequence = k + 1 ∧
    (∀ p : StreamPayment,
      p.next_sequence = (p.sequence, { p with sequence := p.sequence + 1 })) := by
  obtain ⟨h1, h2⟩ := nextSequenceRun_spec k (initial_payment from_addr to_addr
    source_asset_scale source_asset_code source_amount now)
  refine ⟨?_, ?_, fun p => rfl⟩
  · simpa [initial_payment] using h1
  · rw [h2]
    show 1 + k = k + 1
    omega

/-- The only branch of `selectEvent` that yields `Timeout` is the initial
timeout check. -/
lemma selectEvent_timeout_elapsed (now : Nat) (p : StreamPayment)
    (ev : PaymentEvent) (p' : StreamPayment)
    (h : selectEvent now p = some (ev, p')) (hev : ev = .Timeout) :
    maxTimeSinceLastFulfill ≤ now - p.last_fulfill_time := by
  subst hev
  by_contra hc
  simp only [selectEvent, if_neg hc, Option.bind_eq_bind] at h
  rcases hcomp : p.is_complete with _ | b
  · rw [hcomp] at h
    simp at h
  · rw [hcomp] at h
    simp only [Option.some_bind] at h
    cases b
    · simp only [Bool.false_eq_true, if_false] at h
      by_cases hm : p.is_max_in_flight
      · simp [hm] at h
      · simp only [hm, if_false] at h
        rcases hp : p.apply_prepare with _ | ⟨a, q⟩
        · rw [hp] at h
          simp at h
        · rw [hp] at h
          simp at h
    · simp at h

/-- C8: the timeout check is evaluated before every other event on each loop
iteration — `selectEvent` yields `Timeout` exactly when 30 time units have
elapsed since `last_fulfill_time` — the `Timeout` event maps to
`TimeoutError`, and `last_fulfill_time` is advanced only by `apply_fulfill`:
`apply_prepare`, `apply_reject` and the whole Reject reply path leave it
unchanged. -/
theorem c8_timeout_semantics :
    (∀ now (p : StreamPayment),
      maxTimeSinceLastFulfill ≤ now - p.last_fulfill_time →
      selectEvent now p = some (.Timeout, p)) ∧
    (∀ now (p : StreamPayment) ev p', selectEvent now p = some (ev, p') →
      ev = .Timeout → maxTimeSinceLastFulfill ≤ now - p.last_fulfill_time) ∧
    (∀ (p : StreamPayment) amount p', p.apply_prepare = some (amount, p') →
      p'.last_fulfill_time = p.last_fulfill_time) ∧
    (∀ (p : StreamPayment) src dst now p',
      p.apply_fulfill src dst now = some p' → p'.last_fulfill_time = now) ∧
    (∀ (p : StreamPayment) amount reject p',
      p.apply_reject amount reject = some p' →
      p'.last_fulfill_time = p.last_fulfill_time) ∧
    (∀ secret payment sequence source_amount min_destination_amount now
        reject p' result,
      send_money_packet_reply secret payment sequence source_amount
          min_destination_amount now (.rejectReply reject)
        = some (p', result) →
      p'.last_fulfill_time = payment.last_fulfill_time) ∧
    (∀ p : StreamPayment, loopEventResult .Timeout p
      = some (.error (.TimeoutError
          "Time since last fulfill exceeded the maximum time limit"))) := by
  refine ⟨?_, ?_, ?_, ?_, ?_, ?_, fun p => rfl⟩
  · intro now p hle
    simp [selectEvent, if_pos hle]
  · exact selectEvent_timeout_elapsed
  · intro p amount p' hp
    simp only [StreamPayment.apply_prepare,
      StreamPayment.get_amount_available_to_send, checkedSub,
      Option.bind_eq_bind] at hp
    split at hp
    · simp only [Option.some_bind, Option.some.injEq, Prod.mk.injEq] at hp
      rw [← hp.2]
    · simp at hp
  · intro p src dst now p' hp
    simp only [StreamPayment.apply_fulfill, checkedSub,
      Option.bind_eq_bind] at hp
    split at hp
    · simp only [Option.some_bind, Option.some.injEq] at hp
      rw [← hp]
    · simp at hp
  · intro p amount reject p' hp
    simp only [StreamPayment.apply_reject, checkedSub,
      Option.bind_eq_bind] at hp
    split at hp
    · split at hp
      · simp only [Option.some_bind, Option.some.injEq] at hp
        rw [← hp]
      · simp at hp
    · simp at hp
  · intro secret payment sequence source_amount min_destination_amount now
      reject p' result h
    rcases hI : interpret_claimed_amount payment sequence .Reject
      (fromEncrypted secret reject.data) with ⟨ca, pmid⟩
    have hpres : pmid.last_fulfill_time = payment.last_fulfill_time := by
      have := (interpret_claimed_amount_preserves payment sequence .Reject
        (fromEncrypted secret reject.data)).2.2.2.2.1
      rw [hI] at this
      exact this
    simp only [send_money_packet_reply, hI, Option.bind_eq_bind,
      Option.bind_eq_some, Option.some.injEq, Prod.mk.injEq] at h
    obtain ⟨p1, hp1, hpay, hres⟩ := h
    subst hpay
    rw [← hpres]
    simp only [StreamPayment.apply_reject, checkedSub,
      Option.bind_eq_bind] at hp1
    split at hp1
    · split at hp1
      · simp only [Option.some_bind, Option.some.injEq] at hp1
        rw [← hp1]
      · simp at hp1
    · simp at hp1

/-- Witness for C8: a fresh payment at time 35 (35 units since the last
fulfill at time 0) selects the `Timeout` event. -/
theorem c8_timeout_semantics_witness :
    selectEvent 35 cexPayment = some (.Timeout, cexPayment) :=
  c8_timeout_semantics.1 35 cexPayment (by decide)

/-- C9: with known, distinct destination asset details and a store that
returns `Ok`, `get_min_destination_amount` panics (out-of-bounds index into
the price vector) exactly when the store returns fewer than two prices; with
one price per requested code the indexing is safe. -/
theorem c9_rate_indexing (rates : List String → Except Unit (List ℚ))
    (slippage : ℚ) (source_amount : Nat) (receipt : StreamDelivery)
    (dest_code : String) (dest_scale : Nat) (prices : List ℚ)
    (hdc : receipt.destination_asset_code = some dest_code)
    (hds : receipt.destination_asset_scale = some dest_scale)
    (hne : receipt.source_asset_code ≠ dest_code)
    (hok : rates [receipt.source_asset_code, dest_code] = .ok prices) :
    (prices.length < 2 →
      get_min_destination_amount rates slippage source_amount receipt
        = none) ∧
    (2 ≤ prices.length →
      (get_min_destination_amount rates slippage source_amount
          receipt).isSome = true) := by
  constructor
  · intro hlen
    rcases prices with _ | ⟨p0, rest⟩
    · simp [get_min_destination_amount, hdc, hds, hne, hok]
    · rcases rest with _ | ⟨p1, rest'⟩
      · simp [get_min_destination_amount, hdc, hds, hne, hok]
      · simp only [List.length_cons] at hlen
        omega
  · intro hlen
    rcases prices with _ | ⟨p0, rest⟩
    · simp at hlen
    · rcases rest with _ | ⟨p1, rest'⟩
      · simp at hlen
      · simp [get_min_destination_amount, hdc, hds, hne, hok]

/-- Witness for C9: a two-price store makes the indexing safe for the
concrete USD→EUR receipt. -/
theorem c9_rate_indexing_witness :
    (get_min_destination_amount cexRates (1 / 100) 100
        cexReceiptDest).isSome = true :=
  (c9_rate_indexing cexRates (1 / 100) 100 cexReceiptDest "EUR" 4 [2, 4] rfl
    rfl (by decide) rfl).2 (by decide)

/-- `pendingSum` over a cons. -/
lemma pendingSum_cons (pk : Nat × Bool) (rest : List (Nat × Bool)) :
    pendingSum (pk :: rest) = (if pk.2 then 0 else pk.1) + pendingSum rest := by
  rcases pk with ⟨a, b⟩
  cases b <;> simp [pendingSum, List.filter_cons]

/-- `pendingSum` over an append. -/
lemma pendingSum_append (l1 l2 : List (Nat × Bool)) :
    pendingSum (l1 ++ l2) = pendingSum l1 + pendingSum l2 := by
  simp [pendingSum, List.filter_append]

/-- An unsettled packet's amount is bounded by the pending total. -/
lemma pendingSum_get (packets : List (Nat × Bool)) (idx amt : Nat)
    (h : packets.get? idx = some (amt, false)) :
    amt ≤ pendingSum packets := by
  induction packets generalizing idx with
  | nil => simp at h
  | cons pk rest ih =>
    cases idx with
    | zero =>
      simp only [List.get?_cons_zero, Option.some.injEq] at h
      subst h
      rw [pendingSum_cons]
      simp
    | succ n =>
      simp only [List.get?_cons_succ] at h
      have hrec := ih n h
      rw [pendingSum_cons]
      omega

/-- Settling an unsettled packet removes exactly its amount from the pending
total. -/
lemma pendingSum_set (packets : List (Nat × Bool)) (idx amt : Nat)
    (h : packets.get? idx = some (amt, false)) :
    pendingSum (packets.set idx (amt, true)) = pendingSum packets - amt := by
  induction packets generalizing idx with
  | nil => simp at h
  | cons pk rest ih =>
    cases idx with
    | zero =>
      simp only [List.get?_cons_zero, Option.some.injEq] at h
      subst h
      rw [List.set_cons_zero, pendingSum_cons, pendingSum_cons]
      simp
    | succ n =>
      simp only [List.get?_cons_succ] at h
      have hrec := ih n h
      have hle := pendingSum_get rest n amt h
      rw [List.set_cons_succ, pendingSum_cons, pendingSum_cons, hrec]
      omega

/-- C10: `apply_fulfill`'s unchecked subtraction requires
`source_amount ≤ in_flight_amount` and `apply_reject`'s requires the amount
to be at most both `sent_amount` and `in_flight_amount` (otherwise the `u64`
subtraction underflows); under the run discipline that every settled amount
was added by exactly one `apply_prepare` and is settled at most once, every
step succeeds and no subtraction underflows. -/
theorem c10_unchecked_subtraction_safety :
    (∀ (p : StreamPayment) src dst now,
      (p.apply_fulfill src dst now).isSome = true ↔
        src ≤ p.receipt.in_flight_amount) ∧
    (∀ (p : StreamPayment) amount reject,
      (p.apply_reject amount reject).isSome = true ↔
        (amount ≤ p.receipt.sent_amount ∧
          amount ≤ p.receipt.in_flight_amount)) ∧
    (∀ (t : TraceState) (op : RunOp), TraceInv t → opOk t op = true →
      ∃ t', traceStep t op = some t' ∧ TraceInv t') := by
  refine ⟨?_, ?_, ?_⟩
  · intro p src dst now
    by_cases hle : src ≤ p.receipt.in_flight_amount <;>
      simp [StreamPayment.apply_fulfill, checkedSub, hle]
  · intro p amount reject
    by_cases hs : amount ≤ p.receipt.sent_amount
    · by_cases hi : amount ≤ p.receipt.in_flight_amount <;>
        simp [StreamPayment.apply_reject, checkedSub, hs, hi]
    · simp [StreamPayment.apply_reject, checkedSub, hs]
  · intro t op hInv hok
    obtain ⟨hin, hsent, hflight⟩ :
        t.payment.receipt.in_flight_amount = pendingSum t.packets ∧
        t.payment.receipt.sent_amount ≤ t.payment.receipt.source_amount ∧
        t.payment.receipt.in_flight_amount
          ≤ t.payment.receipt.sent_amount := hInv
    cases op with
    | prepareOp =>
      rcases happ : t.payment.apply_prepare with _ | ⟨a, q⟩
      · exfalso
        simp [StreamPayment.apply_prepare,
          StreamPayment.get_amount_available_to_send, checkedSub,
          hsent] at happ
      · have hq := happ
        simp only [StreamPayment.apply_prepare,
          StreamPayment.get_amount_available_to_send, checkedSub,
          Option.bind_eq_bind, if_pos hsent, Option.some_bind,
          Option.some.injEq, Prod.mk.injEq] at hq
        obtain ⟨hamt, hq⟩ := hq
        have hbound : a ≤ t.payment.receipt.source_amount
            - t.payment.receipt.sent_amount := by
          rw [← hamt]
          exact Nat.min_le_left _ _
        refine ⟨⟨q, t.packets ++ [(a, false)]⟩, ?_, ?_, ?_, ?_⟩
        · simp only [traceStep, happ, Option.map_some']
        · show q.receipt.in_flight_amount
            = pendingSum (t.packets ++ [(a, false)])
          rw [← hq, hamt, pendingSum_append, pendingSum_cons]
          show t.payment.receipt.in_flight_amount + a
            = pendingSum t.packets + (a + pendingSum [])
          have h0 : pendingSum ([] : List (Nat × Bool)) = 0 := rfl
          omega
        · show q.receipt.sent_amount ≤ q.receipt.source_amount
          rw [← hq, hamt]
          show t.payment.receipt.sent_amount + a
            ≤ t.payment.receipt.source_amount
          omega
        · show q.receipt.in_flight_amount ≤ q.receipt.sent_amount
          rw [← hq, hamt]
          show t.payment.receipt.in_flight_amount + a
            ≤ t.payment.receipt.sent_amount + a
          omega
    | fulfillOp idx dst now =>
      rcases hget : t.packets.get? idx with _ | ⟨amt, settled⟩
      · simp only [opOk, hget] at hok
        exact absurd hok Bool.false_ne_true
      · cases settled with
        | true =>
          simp only [opOk, hget, Bool.not_true] at hok
          exact absurd hok Bool.false_ne_true
        | false =>
          have hle : amt ≤ pendingSum t.packets :=
            pendingSum_get _ _ _ hget
          have hle' : amt ≤ t.payment.receipt.in_flight_amount := by omega
          rcases happ : t.payment.apply_fulfill amt dst now with _ | q
          · exfalso
            simp [StreamPayment.apply_fulfill, checkedSub, hle'] at happ
          · have hq := happ
            simp only [StreamPayment.apply_fulfill, checkedSub,
              Option.bind_eq_bind, if_pos hle', Option.some_bind,
              Option.some.injEq] at hq
            refine ⟨⟨q, t.packets.set idx (amt, true)⟩, ?_, ?_, ?_, ?_⟩
            · simp only [traceStep, hget, happ, Option.map_some']
            · show q.receipt.in_flight_amount
                = pendingSum (t.packets.set idx (amt, true))
              rw [← hq, pendingSum_set _ _ _ hget]
              show t.payment.receipt.in_flight_amount - amt
                = pendingSum t.packets - amt
              omega
            · show q.receipt.sent_amount ≤ q.receipt.source_amount
              rw [← hq]
              exact hsent
            · show q.receipt.in_flight_amount ≤ q.receipt.sent_amount
              rw [← hq]
              show t.payment.receipt.in_flight_amount - amt
                ≤ t.payment.receipt.sent_amount
              omega
    | rejectOp idx reject =>
      rcases hget : t.packets.get? idx with _ | ⟨amt, settled⟩
      · simp only [opOk, hget] at hok
        exact absurd hok Bool.false_ne_true
      · cases settled with
        | true =>
          simp only [opOk, hget, Bool.not_true] at hok
          exact absurd hok Bool.false_ne_true
        | false =>
          have hle : amt ≤ pendingSum t.packets :=
            pendingSum_get _ _ _ hget
          have hle' : amt ≤ t.payment.receipt.in_flight_amount := by omega
          have hle2 : amt ≤ t.payment.receipt.sent_amount :=
            le_trans hle' hflight
          rcases happ : t.payment.apply_reject amt reject with _ | q
          · exfalso
            simp [StreamPayment.apply_reject, checkedSub, hle', hle2] at happ
          · have hq := happ
            simp only [StreamPayment.apply_reject, checkedSub,
              Option.bind_eq_bind, if_pos hle2, if_pos hle',
              Option.some_bind, Option.some.injEq] at hq
            refine ⟨⟨q, t.packets.set idx (amt, true)⟩, ?_, ?_, ?_, ?_⟩
            · simp only [traceStep, hget, happ, Option.map_some']
            · show q.receipt.in_flight_amount
                = pendingSum (t.packets.set idx (amt, true))
              rw [← hq, pendingSum_set _ _ _ hget]
              show t.payment.receipt.in_flight_amount - amt
                = pendingSum t.packets - amt
              omega
            · show q.receipt.sent_amount ≤ q.receipt.source_amount
              rw [← hq]
              show t.payment.receipt.sent_amount - amt
                ≤ t.payment.receipt.source_amount
              omega
            · show q.receipt.in_flight_amount ≤ q.receipt.sent_amount
              rw [← hq]
              show t.payment.receipt.in_flight_amount - amt
                ≤ t.payment.receipt.sent_amount - amt
              omega

/-- Witness for C10: stepping the concrete one-packet trace by the fulfill
of its pending packet succeeds. -/
theorem c10_unchecked_subtraction_safety_witness :
    (traceStep cexTrace (RunOp.fulfillOp 0 7 5)).isSome = true := by
  obtain ⟨t', ht, _⟩ := c10_unchecked_subtraction_safety.2.2 cexTrace
    (RunOp.fulfillOp 0 7 5) (by decide) (by decide)
  rw [ht]
  rfl

end StreamClient
